import Mathlib

/-!
Verification development for the ai-data-center-explorer dashboard.

This file shallowly embeds the core data model and operations of the
dashboard — the range filter engine (`src/pages/Index.tsx`, `filteredData`),
the per-chart attribute normalizers (`InteractiveParallelCoordinates.tsx`
`normalizedData`, `SpiderChart.tsx` `normalizeValue`), the rendering-emphasis
colour functions (`getLineColor`, `getPointColor`), the highlight/compare
toggle (`handleSpiderCountrySelect`), and the CSV loaders
(`cia-finaldata-loader`'s `loadCiaFinalData`, `csv-data.ts`'s
`fetchCountryDataFromCsv`) — and proves or refutes the specified properties
about them.

Modelling conventions:
* JavaScript numbers that the core logic stores are modelled as rationals
  (`ℚ`).  The loaders filter every parsed metric through
  `Number.isFinite` before storing it (proved below as the loader
  well-formedness invariant), so record attribute values are either
  absent (`none`) or finite; an absent-or-NaN chart value is modelled as
  `none`, which matches the charts' `typeof v === 'number' && !isNaN(v)`
  guards treating NaN exactly like `undefined`.
* Where raw, possibly-non-finite parse results matter (the loaders), the
  IEEE special values are modelled explicitly by the `JsNum` type.
* JavaScript `Set<string>` values are modelled as lists of strings used
  only through size and membership.
-/

namespace DataCenter

/-- A JavaScript number as the loaders see it: a finite value, `NaN`, or a
signed infinity. -/
inductive JsNum where
  | finite (q : ℚ)
  | nan
  | posInf
  | negInf
  deriving DecidableEq, Repr

/-- Predicate `Number.isFinite`. -/
def JsNum.isFinite : JsNum → Bool
  | .finite _ => true
  | _ => false

/-- A country record as consumed by the filter engine and the charts
(`src/types/country-data.ts`, interface `CountryData`, merged with the
extended attribute keys used by the charts).  The five named metrics are the
legacy fields read by `filteredData`; `attrs` is the open attribute mapping
(`d[attr.key]`) used by the chart normalizers, an association list from
attribute key to (finite) numeric value, absent keys denoting `undefined`;
`literacyRaw` is the `Total_Literacy_Rate` display string. -/
structure CountryRec where
  country : String
  countryCode : String
  renewableEnergyPercent : Option ℚ := none
  electricityCost : Option ℚ := none
  averageTemperature : Option ℚ := none
  gdpPerCapita : Option ℚ := none
  internetSpeed : Option ℚ := none
  attrs : List (String × ℚ) := []
  literacyRaw : Option String := none
  deriving DecidableEq, Repr

/-- Attribute access `d[key]` on the open part of a record. -/
def getAttr (r : CountryRec) (k : String) : Option ℚ :=
  r.attrs.lookup k

/-- The filter state (`src/types/country-data.ts` `FilterState`, including
the `selectedCountries : string[]` field declared by the repository's
extended `FilterState` interface and initialized by `FilterPanel.tsx`). -/
structure FilterState where
  renewableEnergy : ℚ × ℚ
  electricityCost : ℚ × ℚ
  temperature : ℚ × ℚ
  gdp : ℚ × ℚ
  internetSpeed : ℚ × ℚ
  selectedMetric : String
  selectedCountries : List String
  deriving DecidableEq, Repr

/-- One range check of `filteredData` (`src/pages/Index.tsx:120-161`): the
guard `if (v !== undefined && (v < lo || v > hi)) return false` passes a
record whose value is `undefined`, and otherwise requires `lo ≤ v ≤ hi`. -/
def rangePass (v : Option ℚ) (lo hi : ℚ) : Bool :=
  match v with
  | none => true
  | some x => !(decide (x < lo) || decide (x > hi))

/-- The five filtered attributes of `filteredData`. -/
inductive FilterAttr where
  | renewable
  | elecCost
  | temp
  | gdpA
  | internet
  deriving DecidableEq, Repr

/-- The record value consulted by each of the five range checks. -/
def attrValue (c : CountryRec) : FilterAttr → Option ℚ
  | .renewable => c.renewableEnergyPercent
  | .elecCost => c.electricityCost
  | .temp => c.averageTemperature
  | .gdpA => c.gdpPerCapita
  | .internet => c.internetSpeed

/-- The `[lo, hi]` bounds each check uses; `filteredData` divides the
electricity-cost slider bounds by 100 before comparing. -/
def attrBounds (f : FilterState) : FilterAttr → ℚ × ℚ
  | .renewable => f.renewableEnergy
  | .elecCost => (f.electricityCost.1 / 100, f.electricityCost.2 / 100)
  | .temp => f.temperature
  | .gdpA => f.gdp
  | .internet => f.internetSpeed

/-- One named range check of `filteredData`. -/
def attrCheck (f : FilterState) (c : CountryRec) (a : FilterAttr) : Bool :=
  rangePass (attrValue c a) (attrBounds f a).1 (attrBounds f a).2

/-- The per-record predicate of `filteredData`
(`src/pages/Index.tsx:120-161`): the callback returns `false` as soon as one
of the five range checks fails, and `true` otherwise, i.e. the conjunction
of the five checks.  `selectedMetric` and `selectedCountries` are not read. -/
def countryPasses (f : FilterState) (c : CountryRec) : Bool :=
  attrCheck f c .renewable &&
  attrCheck f c .elecCost &&
  attrCheck f c .temp &&
  attrCheck f c .gdpA &&
  attrCheck f c .internet

/-- Definition `filteredData = countryData.filter(...)` (`src/pages/Index.tsx:120`). -/
def filteredData (f : FilterState) (data : List CountryRec) : List CountryRec :=
  data.filter (countryPasses f)

/-! ## Parallel-coordinates normalizer
(`src/components/dashboard/InteractiveParallelCoordinates.tsx:101-133`,
`normalizedData`). -/

/-- Expression `data.map(d => d[attr.key]).filter(v => typeof v === 'number' && !isNaN(v))`:
the defined values of one attribute across the data set. -/
def pcValues (data : List CountryRec) (k : String) : List ℚ :=
  data.filterMap (fun d => getAttr d k)

/-- Assignment `ranges[attr.key] = (min: Math.min(...values), max: Math.max(...values))`,
computed only when `values.length > 0`. -/
def pcRange (data : List CountryRec) (k : String) : Option (ℚ × ℚ) :=
  match pcValues data k with
  | [] => none
  | v :: vs => some (vs.foldl min v, vs.foldl max v)

/-- The per-record, per-attribute body of `normalizedData`: with a defined,
non-NaN value and a computed range, `span === 0 ? 0.5 : (value - min) / span`;
otherwise the midpoint `0.5`. -/
def pcNormalize (data : List CountryRec) (k : String) (c : CountryRec) : ℚ :=
  match getAttr c k, pcRange data k with
  | some v, some (lo, hi) =>
      if hi - lo = 0 then 1/2 else (v - lo) / (hi - lo)
  | _, _ => 1/2

/-- Definition `normalizedData` itself: one output entry per input record, holding the
record and its normalized value for each selected attribute. -/
def normalizedData (data : List CountryRec) (selectedAttributes : List String) :
    List (CountryRec × List (String × ℚ)) :=
  data.map (fun c => (c, selectedAttributes.map (fun k => (k, pcNormalize data k c))))

/-! ## Spider-chart normalizer
(`src/components/dashboard/SpiderChart.tsx:81-148`).  The literacy field is
stored as a display string such as `"98.4%"`; the chart strips the first
`"%"` and applies JavaScript `parseFloat`. -/

/-- JavaScript `String.prototype.toUpperCase` (ASCII letters, the only
characters these country strings and codes contain). -/
def jsToUpper (s : String) : String :=
  String.mk (s.toList.map Char.toUpper)

/-- JavaScript `String.prototype.trim`: strip leading and trailing
whitespace. -/
def jsTrim (s : String) : String :=
  String.mk (((s.toList.dropWhile Char.isWhitespace).reverse.dropWhile
    Char.isWhitespace).reverse)

/-- Remove the first `'%'` of a character list, leaving the rest intact. -/
def dropFirstPercent : List Char → List Char
  | [] => []
  | c :: cs => if c = '%' then cs else c :: dropFirstPercent cs

/-- JavaScript `String.replace("%", "")` — JavaScript `replace` with a string pattern
replaces only the first occurrence. -/
def replaceFirstPercent (s : String) : String :=
  String.mk (dropFirstPercent s.toList)

/-- Digits of the longest leading digit run, with the remaining characters. -/
def takeDigits : List Char → (List Char × List Char)
  | [] => ([], [])
  | c :: cs =>
      if c.isDigit then
        let (ds, rest) := takeDigits cs
        (c :: ds, rest)
      else ([], c :: cs)

/-- Natural number denoted by a digit list (most significant first). -/
def digitsToNat (ds : List Char) : ℕ :=
  ds.foldl (fun acc c => 10 * acc + (c.toNat - 48)) 0

/-- JavaScript `parseFloat` restricted to ordinary decimal literals: skip
leading whitespace, read an optional sign, then the longest prefix of the
form `digits`, `digits.digits` or `.digits` with an optional `e`/`E`
exponent, ignoring any trailing characters; `none` when no digits are found
(`parseFloat` returns `NaN` there).  The `Infinity` literal, which never
occurs in the percentage strings this chart parses, is not modelled. -/
def parseFloatJs (s : String) : Option ℚ :=
  let cs := s.toList.dropWhile (fun c => c = ' ' || c = '\t' || c = '\n' || c = '\r')
  let (neg, cs) :=
    match cs with
    | '-' :: rest => (true, rest)
    | '+' :: rest => (false, rest)
    | rest => (false, rest)
  let (intDs, cs) := takeDigits cs
  let (fracDs, cs) :=
    match cs with
    | '.' :: rest => takeDigits rest
    | rest => ([], rest)
  if intDs.isEmpty && fracDs.isEmpty then
    none
  else
    let mantissa : ℚ :=
      (digitsToNat intDs : ℚ) + (digitsToNat fracDs : ℚ) / ((10 : ℚ) ^ fracDs.length)
    let expPart : Option ℤ :=
      match cs with
      | 'e' :: '-' :: rest =>
          let (eds, _) := takeDigits rest
          if eds.isEmpty then none else some (-(digitsToNat eds : ℤ))
      | 'E' :: '-' :: rest =>
          let (eds, _) := takeDigits rest
          if eds.isEmpty then none else some (-(digitsToNat eds : ℤ))
      | 'e' :: '+' :: rest =>
          let (eds, _) := takeDigits rest
          if eds.isEmpty then none else some (digitsToNat eds : ℤ)
      | 'E' :: '+' :: rest =>
          let (eds, _) := takeDigits rest
          if eds.isEmpty then none else some (digitsToNat eds : ℤ)
      | 'e' :: rest =>
          let (eds, _) := takeDigits rest
          if eds.isEmpty then none else some (digitsToNat eds : ℤ)
      | 'E' :: rest =>
          let (eds, _) := takeDigits rest
          if eds.isEmpty then none else some (digitsToNat eds : ℤ)
      | _ => none
    let base := if neg then -mantissa else mantissa
    some (match expPart with
          | some e => base * (10 : ℚ) ^ e
          | none => base)

/-- The chart's literacy parse:
`raw === null || raw === undefined || raw === "" ? NaN : parseFloat(String(raw).replace("%", ""))`,
with NaN results filtered out (`none`). -/
def parseLiteracy (raw : Option String) : Option ℚ :=
  match raw with
  | none => none
  | some s => if s = "" then none else parseFloatJs (replaceFirstPercent s)

/-- The literacy attribute key. -/
def literacyKey : String := "Total_Literacy_Rate"

/-- List `invertedMetrics` (`SpiderChart.tsx:54`): metrics where lower is better. -/
def invertedMetrics : List String :=
  ["Unemployment_Rate_percent", "co2_per_gdp_tonnes_per_billion"]

/-- The defined, finite values of one radar attribute across the data set,
with the literacy special case (`SpiderChart.tsx:85-101`). -/
def spiderValues (data : List CountryRec) (k : String) : List ℚ :=
  if k = literacyKey then
    data.filterMap (fun d => parseLiteracy d.literacyRaw)
  else
    data.filterMap (fun d => getAttr d k)

/-- Expression `ranges[attr.key]` of the spider chart (`SpiderChart.tsx:103-108`). -/
def spiderRange (data : List CountryRec) (k : String) : Option (ℚ × ℚ) :=
  match spiderValues data k with
  | [] => none
  | v :: vs => some (vs.foldl min v, vs.foldl max v)

/-- JavaScript `Math.round`: half-way cases round toward positive infinity. -/
def roundJs (q : ℚ) : ℤ :=
  ⌊q + 1/2⌋

/-- Function `normalizeValue` (`SpiderChart.tsx:119-148`): returns `null` (`none`) for
a missing country, missing or unparseable value, or missing range; otherwise
min-max normalizes (midpoint on zero span), inverts the lower-is-better
metrics, and returns `Math.round(normalized * 100)`. -/
def spiderNormalizeValue (data : List CountryRec) (k : String)
    (country : Option CountryRec) : Option ℤ :=
  match country with
  | none => none
  | some c =>
      let value : Option ℚ :=
        if k = literacyKey then parseLiteracy c.literacyRaw
        else getAttr c k
      match value, spiderRange data k with
      | some v, some (lo, hi) =>
          let span := hi - lo
          let normalized := if span = 0 then 1/2 else (v - lo) / span
          let normalized := if k ∈ invertedMetrics then 1 - normalized else normalized
          some (roundJs (normalized * 100))
      | _, _ => none

/-! ## Rendering-emphasis functions.
A JavaScript `Set<string>` prop that may be `undefined` is modelled as
`Option (List String)` read only through `size` and `has`. -/

/-- Guard `highlightedCountries && highlightedCountries.size > 0`. -/
def setNonempty (s : Option (List String)) : Bool :=
  match s with
  | none => false
  | some l => l.length > 0

/-- Lookup `highlightedCountries.has(code)` guarded by definedness. -/
def setHas (s : Option (List String)) (code : String) : Bool :=
  match s with
  | none => false
  | some l => l.contains code

/-- Guard `selectedCountries && selectedCountries.some(c => c.countryCode === countryCode)`. -/
def selectedSome (sel : Option (List CountryRec)) (code : String) : Bool :=
  match sel with
  | none => false
  | some l => l.any (fun c => c.countryCode == code)

/-- Guard `activeCountry && activeCountry.countryCode === countryCode`. -/
def activeIs (active : Option CountryRec) (code : String) : Bool :=
  match active with
  | none => false
  | some a => a.countryCode == code

/-- Function `getLineColor`
(`src/components/dashboard/InteractiveParallelCoordinates.tsx:141-154`):
hover first, then the non-empty highlight set (member ↦ highlight colour,
non-member ↦ faded), then the selected (active) countries, else default. -/
def getLineColor (hovered : Option String) (highlighted : Option (List String))
    (selected : Option (List CountryRec)) (code : String) : String :=
  if hovered = some code then
    "hsl(var(--chart-3))"
  else if setNonempty highlighted then
    if setHas highlighted code then "hsl(var(--chart-1))"
    else "hsl(var(--muted-foreground) / 0.1)"
  else if selectedSome selected code then
    "hsl(var(--chart-2))"
  else
    "hsl(var(--muted-foreground) / 0.3)"

/-- Function `getPointColor` (EnhancedScatterPlot, `src/unnamed/part_012:61-71`):
the active country first, then the non-empty highlight set (member ↦
highlight colour, non-member ↦ faded), else default. -/
def getPointColor (active : Option CountryRec) (highlighted : Option (List String))
    (code : String) : String :=
  if activeIs active code then
    "hsl(var(--chart-3))"
  else if setNonempty highlighted then
    if setHas highlighted code then "hsl(var(--chart-1))"
    else "hsl(var(--muted-foreground) / 0.3)"
  else
    "hsl(var(--chart-2))"

/-! ## Highlight/compare toggle
(`src/pages/Index.tsx:172-188`, `handleSpiderCountrySelect`). -/

/-- The dashboard's selection state: the single active (selected) country
and the compare list toggled by the spider chart. -/
structure DashState where
  selectedCountry : Option CountryRec
  compareCountries : List CountryRec
  deriving DecidableEq, Repr

/-- Handler `handleSpiderCountrySelect(country, options)`: always sets
`selectedCountry` to the clicked country; unless `options.toggleCompare`
is `false`, toggles the country's `countryCode` membership in
`compareCountries` (removing every entry with that code if one exists,
appending the country otherwise). -/
def handleSpiderCountrySelect (country : CountryRec) (toggleCompare : Option Bool)
    (s : DashState) : DashState :=
  let s1 : DashState := { s with selectedCountry := some country }
  if toggleCompare = some false then
    s1
  else
    let alreadyThere := s.compareCountries.any
      (fun c => c.countryCode == country.countryCode)
    if alreadyThere then
      { s1 with compareCountries :=
          s.compareCountries.filter (fun c => !(c.countryCode == country.countryCode)) }
    else
      { s1 with compareCountries := s.compareCountries ++ [country] }

/-- Membership of a country code in a compare list. -/
def hasCode (l : List CountryRec) (code : String) : Bool :=
  l.any (fun c => c.countryCode == code)

/-! ## CSV loaders
(`src/unnamed/part_000`, `loadCiaFinalData`; `src/lib/csv-data.ts`,
`fetchCountryDataFromCsv`). -/

/-- A raw CSV cell as `loadCiaFinalData` sees it (Papa parse with
`dynamicTyping: false`, so every present cell is a string): absent (or
`null`), the empty string, or a non-empty string whose JavaScript `Number`
conversion yields the carried `JsNum` (string-to-number conversion itself is
not re-implemented; the cell carries its result). -/
inductive CsvCell where
  | missing
  | empty
  | numOf (j : JsNum)
  deriving DecidableEq, Repr

/-- Function `parseNumber` (`src/unnamed/part_000:36-40`): `null`/`undefined`/`""`
map to `undefined`; otherwise `Number(value)` is kept only when
`Number.isFinite`. -/
def parseNumber : CsvCell → Option JsNum
  | .missing => none
  | .empty => none
  | .numOf j => if j.isFinite then some j else none

/-- Function `parseLiteracyRate` (`src/unnamed/part_000:42-45`):
`null`/`undefined`/`""` map to `undefined`, anything else to its string. -/
def parseLiteracyRate (raw : Option String) : Option String :=
  match raw with
  | none => none
  | some s => if s = "" then none else some s

/-- Modelled from the spec: the companion coordinate lookup
(`getComprehensiveCountryCoordinates` from
`comprehensive-country-coordinates`, a literal table whose source file is
not in the repository snapshot).  Per the spec's external-interface section,
it supplies each country's `(latitude, longitude)` and a short code; a
country it cannot resolve yields no entry. -/
structure Coord where
  lat : ℚ
  lng : ℚ
  code : Option String
  deriving DecidableEq, Repr

/-- One parsed row of `CIA_finaldata.csv` (interface `CiaFinalDataRow`):
the `Country` cell, the literacy display string, the two passthrough text
fields, and the numeric cells as an association list from column name. -/
structure CiaRow where
  rowCountry : Option String
  governmentType : Option String
  capital : Option String
  literacyRate : Option String
  cells : List (String × CsvCell)
  deriving DecidableEq, Repr

/-- Property access `row[key]` on the numeric cells; an absent property is
`undefined` (`missing`). -/
def getCell (row : CiaRow) (k : String) : CsvCell :=
  (row.cells.lookup k).getD .missing

/-- The stored-field / source-column pairs of `loadCiaFinalData`'s record
literal (`src/unnamed/part_000:82-120`), legacy duplications included. -/
def ciaNumericFields : List (String × String) :=
  [("Mean_Temp", "Mean_Temp"),
   ("Real_GDP_PPP_billion_USD", "Real_GDP_PPP_billion_USD"),
   ("Real_GDP_per_Capita_USD", "Real_GDP_per_Capita_USD"),
   ("Real_GDP_Growth_Rate_percent", "Real_GDP_Growth_Rate_percent"),
   ("Unemployment_Rate_percent", "Unemployment_Rate_percent"),
   ("Youth_Unemployment_Rate_percent", "Youth_Unemployment_Rate_percent"),
   ("Public_Debt_percent_of_GDP", "Public_Debt_percent_of_GDP"),
   ("Population_Growth_Rate", "Population_Growth_Rate"),
   ("Median_Age", "Median_Age"),
   ("population_density", "population_density"),
   ("electricity_access_percent", "electricity_access_percent"),
   ("electricity_capacity_per_capita", "electricity_capacity_per_capita"),
   ("internet_users_per_100", "internet_users_per_100"),
   ("broadband_subs_per_100", "broadband_subs_per_100"),
   ("mobile_subs_per_100", "mobile_subs_per_100"),
   ("road_density_per_1000km2", "road_density_per_1000km2"),
   ("rail_density_per_1000km2", "rail_density_per_1000km2"),
   ("airports_per_million", "airports_per_million"),
   ("co2_per_capita_tonnes", "co2_per_capita_tonnes"),
   ("co2_per_gdp_tonnes_per_billion", "co2_per_gdp_tonnes_per_billion"),
   ("fossil_intensity_index", "fossil_intensity_index"),
   ("water_share", "water_share"),
   ("coastline_per_1000km2", "coastline_per_1000km2"),
   ("gdpPerCapita", "Real_GDP_per_Capita_USD"),
   ("averageTemperature", "Mean_Temp"),
   ("renewableEnergyPercent", "electricity_access_percent"),
   ("internetSpeed", "internet_users_per_100"),
   ("electricityCapacityKw", "electricity_capacity_per_capita"),
   ("co2Emissions", "co2_per_capita_tonnes")]

/-- A record as produced by either CSV loader (`CountryData` at load time):
identity, coordinates, passthrough text fields, and the numeric attributes
as stored-field-name / value pairs. -/
structure LoadedCountry where
  country : String
  countryCode : String
  latitude : JsNum
  longitude : JsNum
  governmentType : Option String := none
  capital : Option String := none
  literacy : Option String := none
  numFields : List (String × Option JsNum) := []
  deriving DecidableEq, Repr

/-- Expression `coords.code || countryName.substring(0, 3).toUpperCase()` — the code
from the lookup when truthy, else the first three characters of the name,
upper-cased. -/
def ciaCountryCode (code : Option String) (name : String) : String :=
  match code with
  | some cc => if cc = "" then jsToUpper (name.take 3) else cc
  | none => jsToUpper (name.take 3)

/-- Loader `loadCiaFinalData` (`src/unnamed/part_000:47-135`), abstracted over the
coordinate lookup: rows with a falsy `Country` cell are skipped; rows whose
trimmed name the lookup cannot resolve are skipped with a warning; every
surviving row becomes one record whose numeric fields all pass through
`parseNumber`. -/
def loadCiaFinalData (lookup : String → Option Coord) (rows : List CiaRow) :
    List LoadedCountry :=
  rows.filterMap (fun row =>
    match row.rowCountry with
    | none => none
    | some name0 =>
        if name0 = "" then none
        else
          let countryName := jsTrim name0
          match lookup countryName with
          | none => none
          | some coords =>
              some { country := countryName
                     countryCode := ciaCountryCode coords.code countryName
                     latitude := .finite coords.lat
                     longitude := .finite coords.lng
                     governmentType := row.governmentType
                     capital := row.capital
                     literacy := parseLiteracyRate row.literacyRate
                     numFields := ciaNumericFields.map
                       (fun p => (p.1, parseNumber (getCell row p.2))) })

/-! ### `fetchCountryDataFromCsv` (`src/lib/csv-data.ts:101-200`). -/

/-- A row of one of the four topic CSVs (Papa parse with
`dynamicTyping: true`): the `Country` cell, the `internet_country_code`
cell of the communications file, and the numeric cells, each carried as the
`JsNum` its JavaScript `Number` conversion yields (an absent property reads
as `undefined`, whose `Number` conversion is `NaN`). -/
structure DataRow where
  rowCountry : Option String
  countryCodeCell : Option String := none
  cells : List (String × JsNum) := []
  deriving DecidableEq, Repr

/-- The first structured match of `parseLatLong`'s coordinate regex
(`csv-data.ts:57-59`): the degree/minute digit groups and hemisphere
letters.  Regex matching over the raw string is not re-implemented; a
`Geographic_Coordinates` cell is carried as `none` when the property is
absent, falsy, or unmatched, and as its captured groups otherwise. -/
structure GeoMatch where
  latDeg : ℕ
  latMin : ℕ
  latSouth : Bool
  lonDeg : ℕ
  lonMin : ℕ
  lonWest : Bool
  deriving DecidableEq, Repr

/-- A row of `geography_data.csv`. -/
structure GeoRow where
  rowCountry : Option String
  geoCoord : Option GeoMatch
  deriving DecidableEq, Repr

/-- Function `parseLatLong` (`csv-data.ts:50-89`): no match yields `{}`; a match
yields `deg + min / 60` per axis, negated for the `S`/`W` hemispheres.  The
captured groups are digit strings, so the `Number.isNaN` guards never fire. -/
def parseLatLong (geoCoord : Option GeoMatch) : Option (ℚ × ℚ) :=
  match geoCoord with
  | none => none
  | some g =>
      let lat : ℚ := (g.latDeg : ℚ) + (g.latMin : ℚ) / 60
      let lng : ℚ := (g.lonDeg : ℚ) + (g.lonMin : ℚ) / 60
      some (if g.latSouth then -lat else lat, if g.lonWest then -lng else lng)

/-- Key expression `row.Country.trim().toUpperCase()`, the join key of `indexByCountry`. -/
def normKey (s : String) : String := jsToUpper (jsTrim s)

/-- Function `indexByCountry` (`csv-data.ts:22-30`) followed by a key lookup: rows
with a truthy `Country` are written into a map keyed by the normalized
name, later rows overwriting earlier ones. -/
def indexByCountry (rows : List DataRow) (key : String) : Option DataRow :=
  rows.foldl
    (fun acc r =>
      match r.rowCountry with
      | none => acc
      | some c => if c = "" then acc else if normKey c = key then some r else acc)
    none

/-- Conversion `Number(row[key])` for a joined row: an absent property converts to
`NaN`. -/
def cellNum (row : DataRow) (k : String) : JsNum :=
  (row.cells.lookup k).getD .nan

/-- Expression `row ? Number(row[key]) : undefined`. -/
def joinedNum (row : Option DataRow) (k : String) : Option JsNum :=
  row.map (fun r => cellNum r k)

/-- Expression `commRow ? Number(commRow.a ?? commRow.b) : undefined` — nullish
coalescing between two cells before the `Number` conversion. -/
def joinedNum2 (row : Option DataRow) (k1 k2 : String) : Option JsNum :=
  row.map (fun r =>
    match r.cells.lookup k1 with
    | some j => j
    | none => cellNum r k2)

/-- Guard `Number.isFinite(v) ? v : undefined` on a possibly-undefined value. -/
def keepFinite (v : Option JsNum) : Option JsNum :=
  match v with
  | some j => if j.isFinite then some j else none
  | none => none

/-- Function `deriveCountryCode` (`csv-data.ts:91-99`): strip non-letters from a
truthy internet code and upper-case it when 2–3 letters remain, else the
first two characters of the country name, upper-cased. -/
def deriveCountryCode (internetCode : Option String) (country : String) : String :=
  let fallback := jsToUpper (country.take 2)
  match internetCode with
  | none => fallback
  | some s =>
      if s = "" then fallback
      else
        let cleaned := String.mk (s.toList.filter Char.isAlpha)
        if 2 ≤ cleaned.length && cleaned.length ≤ 3 then jsToUpper cleaned
        else fallback

/-- Loader `fetchCountryDataFromCsv` (`csv-data.ts:101-200`): for each geography
row with a truthy country name, join the three topic files by normalized
name, parse the coordinates, skip the row when no usable coordinate pair
was found, and otherwise store the six metrics, each guarded by
`Number.isFinite`. -/
def fetchCountryDataFromCsv (energy economy comms : List DataRow)
    (geo : List GeoRow) : List LoadedCountry :=
  geo.filterMap (fun geoRow =>
    match geoRow.rowCountry with
    | none => none
    | some c0 =>
        if normKey c0 = "" then none
        else
          let country := jsTrim c0
          let key := normKey c0
          let energyRow := indexByCountry energy key
          let economyRow := indexByCountry economy key
          let commRow := indexByCountry comms key
          match parseLatLong geoRow.geoCoord with
          | none => none
          | some (lat, lng) =>
              some { country := country
                     countryCode := deriveCountryCode
                       (commRow.bind (fun r => r.countryCodeCell)) country
                     latitude := .finite lat
                     longitude := .finite lng
                     numFields :=
                       [("renewableEnergyPercent",
                         keepFinite (joinedNum energyRow "electricity_access_percent")),
                        ("gdpPerCapita",
                         keepFinite (joinedNum economyRow "Real_GDP_per_Capita_USD")),
                        ("internetSpeed",
                         keepFinite (joinedNum2 commRow
                           "broadband_fixed_subscriptions_total" "internet_users_total")),
                        ("co2Emissions",
                         keepFinite (joinedNum energyRow "carbon_dioxide_emissions_Mt")),
                        ("electricityCapacityKw",
                         keepFinite (joinedNum energyRow "electricity_generating_capacity_kW")),
                        ("internetUsers",
                         keepFinite (joinedNum commRow "internet_users_total"))] })

/-! ## Helper lemmas -/

lemma foldl_min_le_init (l : List ℚ) (a : ℚ) : l.foldl min a ≤ a := by
  induction l generalizing a with
  | nil => simp
  | cons h t ih =>
      simp only [List.foldl_cons]
      exact le_trans (ih (min a h)) (min_le_left a h)

lemma foldl_min_le_mem {l : List ℚ} {x : ℚ} (a : ℚ) (hx : x ∈ l) :
    l.foldl min a ≤ x := by
  induction l generalizing a with
  | nil => cases hx
  | cons h t ih =>
      simp only [List.foldl_cons]
      rcases List.mem_cons.mp hx with rfl | hmem
      · exact le_trans (foldl_min_le_init t (min a x)) (min_le_right a x)
      · exact ih (min a h) hmem

lemma init_le_foldl_max (l : List ℚ) (a : ℚ) : a ≤ l.foldl max a := by
  induction l generalizing a with
  | nil => simp
  | cons h t ih =>
      simp only [List.foldl_cons]
      exact le_trans (le_max_left a h) (ih (max a h))

lemma mem_le_foldl_max {l : List ℚ} {x : ℚ} (a : ℚ) (hx : x ∈ l) :
    x ≤ l.foldl max a := by
  induction l generalizing a with
  | nil => cases hx
  | cons h t ih =>
      simp only [List.foldl_cons]
      rcases List.mem_cons.mp hx with rfl | hmem
      · exact le_trans (le_max_right a x) (init_le_foldl_max t (max a x))
      · exact ih (max a h) hmem

/-- Every defined attribute value of a record in the data set lies between
the computed min and max of `pcRange`. -/
lemma pcRange_bounds {data : List CountryRec} {k : String} {c : CountryRec}
    {v lo hi : ℚ} (hc : c ∈ data) (hv : getAttr c k = some v)
    (hr : pcRange data k = some (lo, hi)) : lo ≤ v ∧ v ≤ hi := by
  have hvmem : v ∈ pcValues data k := by
    exact List.mem_filterMap.mpr ⟨c, hc, hv⟩
  unfold pcRange at hr
  cases hval : pcValues data k with
  | nil => rw [hval] at hvmem; cases hvmem
  | cons v0 vs =>
      rw [hval] at hr hvmem
      simp only [Option.some.injEq, Prod.mk.injEq] at hr
      obtain ⟨hlo, hhi⟩ := hr
      subst hlo; subst hhi
      rcases List.mem_cons.mp hvmem with rfl | hmem
      · exact ⟨foldl_min_le_init vs v, init_le_foldl_max vs v⟩
      · exact ⟨foldl_min_le_mem v0 hmem, mem_le_foldl_max v0 hmem⟩

/-- Same statement for the spider chart's per-attribute range. -/
lemma spiderRange_bounds {data : List CountryRec} {k : String}
    {v lo hi : ℚ} (hvmem : v ∈ spiderValues data k)
    (hr : spiderRange data k = some (lo, hi)) : lo ≤ v ∧ v ≤ hi := by
  unfold spiderRange at hr
  cases hval : spiderValues data k with
  | nil => rw [hval] at hvmem; cases hvmem
  | cons v0 vs =>
      rw [hval] at hr hvmem
      simp only [Option.some.injEq, Prod.mk.injEq] at hr
      obtain ⟨hlo, hhi⟩ := hr
      subst hlo; subst hhi
      rcases List.mem_cons.mp hvmem with rfl | hmem
      · exact ⟨foldl_min_le_init vs v, init_le_foldl_max vs v⟩
      · exact ⟨foldl_min_le_mem v0 hmem, mem_le_foldl_max v0 hmem⟩

/-- Membership in the filter's output. -/
lemma mem_filteredData {f : FilterState} {data : List CountryRec}
    {c : CountryRec} :
    c ∈ filteredData f data ↔ c ∈ data ∧ countryPasses f c = true := by
  unfold filteredData
  exact List.mem_filter

/-- Lemma: `countryPasses` is the conjunction of the five named range checks. -/
lemma countryPasses_iff {f : FilterState} {c : CountryRec} :
    countryPasses f c = true ↔ ∀ a : FilterAttr, attrCheck f c a = true := by
  unfold countryPasses
  constructor
  · intro h a
    simp only [Bool.and_eq_true] at h
    cases a <;> tauto
  · intro h
    simp only [Bool.and_eq_true]
    exact ⟨⟨⟨⟨h .renewable, h .elecCost⟩, h .temp⟩, h .gdpA⟩, h .internet⟩

/-- Monotonicity of one range check under widening of its bounds. -/
lemma rangePass_mono {v : Option ℚ} {lo hi lo' hi' : ℚ}
    (hlo : lo' ≤ lo) (hhi : hi ≤ hi') (h : rangePass v lo hi = true) :
    rangePass v lo' hi' = true := by
  cases v with
  | none => rfl
  | some x =>
      simp only [rangePass, Bool.not_eq_true', Bool.or_eq_false_iff,
        decide_eq_false_iff_not, not_lt] at h ⊢
      exact ⟨le_trans hlo h.1, le_trans h.2 hhi⟩

lemma hasCode_append (l : List CountryRec) (c : CountryRec) (k : String) :
    hasCode (l ++ [c]) k = (hasCode l k || (c.countryCode == k)) := by
  simp [hasCode, List.any_append]

lemma hasCode_filter_self (l : List CountryRec) (k : String) :
    hasCode (l.filter (fun c => !(c.countryCode == k))) k = false := by
  induction l with
  | nil => rfl
  | cons h t ih =>
      by_cases hk : h.countryCode == k
      · simp only [hasCode, List.filter, hk, Bool.not_true] at ih ⊢
        exact ih
      · simp only [Bool.not_eq_true] at hk
        simp [hasCode, List.filter, hk] at ih ⊢

lemma hasCode_filter_ne (l : List CountryRec) {k k' : String}
    (hne : k' ≠ k) :
    hasCode (l.filter (fun c => !(c.countryCode == k))) k' = hasCode l k' := by
  induction l with
  | nil => rfl
  | cons h t ih =>
      by_cases hk : h.countryCode == k
      · have hkk : h.countryCode = k := beq_iff_eq.mp hk
        have hk' : (h.countryCode == k') = false := by
          rw [hkk]
          exact beq_eq_false_iff_ne.mpr (Ne.symm hne)
        simp [hasCode, List.filter, hk, hk', ih] at ih ⊢
        exact ih
      · simp only [Bool.not_eq_true] at hk
        simp [hasCode, List.filter, hk] at ih ⊢
        rw [← ih]

/-- Core bound for the parallel-coordinates normalizer: every record of the
data set is normalized into `[0, 1]` for every attribute key. -/
lemma pcNormalize_unit {data : List CountryRec} {k : String} {c : CountryRec}
    (hc : c ∈ data) : 0 ≤ pcNormalize data k c ∧ pcNormalize data k c ≤ 1 := by
  unfold pcNormalize
  cases hv : getAttr c k with
  | none => norm_num
  | some v =>
      cases hr : pcRange data k with
      | none => norm_num
      | some p =>
          obtain ⟨lo, hi⟩ := p
          obtain ⟨hlo, hhi⟩ := pcRange_bounds hc hv hr
          by_cases hs : hi - lo = 0
          · simp only [hs, if_true]
            norm_num
          · have hpos : 0 < hi - lo :=
              lt_of_le_of_ne (by linarith) (Ne.symm hs)
            simp only [hs, if_false]
            constructor
            · exact div_nonneg (by linarith) (le_of_lt hpos)
            · rw [div_le_one hpos]
              linarith

/-- Sample records for concrete evaluations (the spec's end-to-end
scenario: A with gdp 10000, B with gdp 50000, C with no gdp). -/
def recA : CountryRec :=
  { country := "A", countryCode := "A", attrs := [("gdpPerCapita", 10000)] }

def recB : CountryRec :=
  { country := "B", countryCode := "B", attrs := [("gdpPerCapita", 50000)] }

def recC : CountryRec :=
  { country := "C", countryCode := "C", attrs := [] }

def sampleData : List CountryRec := [recA, recB, recC]

/-- C2: for every list of records and every attribute key, the
parallel-coordinates normalizer (`normalizedData`,
`InteractiveParallelCoordinates.tsx:101-133`) assigns each input record
exactly one output entry, and every normalized value in the output lies in
the closed interval `[0, 1]`. -/
theorem C2_normalized_values_in_unit_interval :
    ∀ (data : List CountryRec) (ks : List String),
      (normalizedData data ks).length = data.length ∧
      ∀ e ∈ normalizedData data ks, ∀ p ∈ e.2, 0 ≤ p.2 ∧ p.2 ≤ 1 := by
  intro data ks
  constructor
  · simp [normalizedData]
  · intro e he p hp
    obtain ⟨c, hc, rfl⟩ := List.mem_map.mp he
    obtain ⟨k, _, rfl⟩ := List.mem_map.mp hp
    exact pcNormalize_unit hc

/-- Concrete evaluation of `normalizedData` on the spec's sample data:
A ↦ 0, B ↦ 1, C ↦ 0.5. -/
lemma normalizedData_sample :
    normalizedData sampleData ["gdpPerCapita"] =
      [(recA, [("gdpPerCapita", (0 : ℚ))]),
       (recB, [("gdpPerCapita", (1 : ℚ))]),
       (recC, [("gdpPerCapita", (1/2 : ℚ))])] := by
  norm_num [normalizedData, sampleData, pcNormalize, pcRange, pcValues,
    getAttr, recA, recB, recC, List.lookup, List.filterMap_cons,
    List.filterMap_nil, min_def, max_def]

/-- Witness for C2 at the spec's sample data: A's gdp normalizes to 0, a
value in `[0, 1]`. -/
theorem C2_witness :
    ((recA, [("gdpPerCapita", (0 : ℚ))]) ∈ normalizedData sampleData ["gdpPerCapita"] ∧
      ("gdpPerCapita", (0 : ℚ)) ∈ [("gdpPerCapita", (0 : ℚ))]) ∧
    (0 ≤ (0 : ℚ) ∧ (0 : ℚ) ≤ 1) :=
  ⟨⟨by rw [normalizedData_sample]; exact List.mem_cons_self _ _,
    List.mem_cons_self _ _⟩,
    (C2_normalized_values_in_unit_interval sampleData ["gdpPerCapita"]).2
      (recA, [("gdpPerCapita", (0 : ℚ))])
      (by rw [normalizedData_sample]; exact List.mem_cons_self _ _)
      ("gdpPerCapita", (0 : ℚ)) (List.mem_cons_self _ _)⟩

/-- C3 (amended): the parallel-coordinates normalizer maps a record
with an undefined (or NaN) value for the chosen attribute to the midpoint
`0.5` regardless of other records; the spider chart's `normalizeValue`
(`SpiderChart.tsx:119-148`) instead returns `null` (no data point) for a
missing or unparseable value, not a midpoint. -/
theorem C3_missing_value_fallbacks :
    (∀ (data : List CountryRec) (k : String) (c : CountryRec),
        getAttr c k = none → pcNormalize data k c = 1/2) ∧
    (∀ (data : List CountryRec) (k : String) (c : CountryRec),
        k ≠ literacyKey → getAttr c k = none →
        spiderNormalizeValue data k (some c) = none) ∧
    (∀ (data : List CountryRec) (c : CountryRec),
        parseLiteracy c.literacyRaw = none →
        spiderNormalizeValue data literacyKey (some c) = none) := by
  refine ⟨?_, ?_, ?_⟩
  · intro data k c h
    simp [pcNormalize, h]
  · intro data k c hk h
    simp [spiderNormalizeValue, hk, h]
  · intro data c h
    simp [spiderNormalizeValue, h]

/-- Counterexample to C3 as stated: in the spider chart, record C (no gdp)
yields `null` — no value at all — rather than the midpoint, even though
another record defines the attribute. -/
theorem C3_counterexample :
    spiderNormalizeValue sampleData "Real_GDP_per_Capita_USD"
        (some recC) = none ∧
    (none : Option ℤ) ≠ some 50 := by
  refine ⟨by decide, by decide⟩

/-- Witness for C3: concrete applications of the amended statement. -/
theorem C3_witness :
    (getAttr recC "gdpPerCapita" = none ∧
      pcNormalize sampleData "gdpPerCapita" recC = 1/2) ∧
    ("gdpPerCapita" ≠ literacyKey ∧
      spiderNormalizeValue sampleData "gdpPerCapita" (some recC) = none) :=
  ⟨⟨by decide,
    C3_missing_value_fallbacks.1 sampleData "gdpPerCapita" recC (by decide)⟩,
   ⟨by decide,
    C3_missing_value_fallbacks.2.1 sampleData "gdpPerCapita" recC (by decide)
      (by decide)⟩⟩

/-- C1 (amended): the scatter plot's `getPointColor` follows the
four-step precedence of the spec — active id first, then membership in a
non-empty highlight set, then de-emphasis for non-members, else default.
The parallel-coordinates `getLineColor` does not: it consults the highlight
set *before* the active selection, so with `activeId = A ∈ highlightSet`
the id `A` receives the highlight emphasis (`--chart-1`), not the
strongest/selected emphasis (`--chart-2`); the selected emphasis applies
only when the highlight set is empty or absent.  (Non-members of a
non-empty set are de-emphasized by both charts.) -/
theorem C1_emphasis_precedence :
    (∀ (a : Option CountryRec) (hl : Option (List String)) (code : String),
        activeIs a code = true →
        getPointColor a hl code = "hsl(var(--chart-3))") ∧
    (∀ (a : Option CountryRec) (hl : Option (List String)) (code : String),
        activeIs a code = false → setNonempty hl = true →
        setHas hl code = true →
        getPointColor a hl code = "hsl(var(--chart-1))") ∧
    (∀ (a : Option CountryRec) (hl : Option (List String)) (code : String),
        activeIs a code = false → setNonempty hl = true →
        setHas hl code = false →
        getPointColor a hl code = "hsl(var(--muted-foreground) / 0.3)") ∧
    (∀ (a : Option CountryRec) (hl : Option (List String)) (code : String),
        activeIs a code = false → setNonempty hl = false →
        getPointColor a hl code = "hsl(var(--chart-2))") ∧
    (∀ (hl : Option (List String)) (sel : Option (List CountryRec)) (code : String),
        setNonempty hl = true → setHas hl code = true →
        getLineColor none hl sel code = "hsl(var(--chart-1))") ∧
    (∀ (hl : Option (List String)) (sel : Option (List CountryRec)) (code : String),
        setNonempty hl = true → setHas hl code = false →
        getLineColor none hl sel code = "hsl(var(--muted-foreground) / 0.1)") ∧
    (∀ (hl : Option (List String)) (sel : Option (List CountryRec)) (code : String),
        setNonempty hl = false → selectedSome sel code = true →
        getLineColor none hl sel code = "hsl(var(--chart-2))") ∧
    (∀ (hl : Option (List String)) (sel : Option (List CountryRec)) (code : String),
        setNonempty hl = false → selectedSome sel code = false →
        getLineColor none hl sel code = "hsl(var(--muted-foreground) / 0.3)") := by
  refine ⟨?_, ?_, ?_, ?_, ?_, ?_, ?_, ?_⟩
  · intro a hl code h1
    simp [getPointColor, h1]
  · intro a hl code h1 h2 h3
    simp [getPointColor, h1, h2, h3]
  · intro a hl code h1 h2 h3
    simp [getPointColor, h1, h2, h3]
  · intro a hl code h1 h2
    simp [getPointColor, h1, h2]
  · intro hl sel code h1 h2
    simp [getLineColor, h1, h2]
  · intro hl sel code h1 h2
    simp [getLineColor, h1, h2]
  · intro hl sel code h1 h2
    simp [getLineColor, h1, h2]
  · intro hl sel code h1 h2
    simp [getLineColor, h1, h2]

/-- Counterexample to C1 as stated: with `activeId = A` (the selected
country) and highlight set `{A, B}`, the parallel-coordinates chart colours
A with the highlight emphasis, not the selected/active emphasis — so not
every chart classifies A as "active". -/
theorem C1_counterexample :
    selectedSome (some [recA]) "A" = true ∧
    getLineColor none (some ["A", "B"]) (some [recA]) "A" =
      "hsl(var(--chart-1))" ∧
    getLineColor none (some ["A", "B"]) (some [recA]) "A" ≠
      "hsl(var(--chart-2))" ∧
    getPointColor (some recA) (some ["A", "B"]) "A" =
      "hsl(var(--chart-3))" := by
  refine ⟨by decide, by decide, by decide, by decide⟩

/-- Witness for C1: the amended statement applied at the counterexample's
state. -/
theorem C1_witness :
    (setNonempty (some ["A", "B"]) = true ∧ setHas (some ["A", "B"]) "A" = true ∧
      getLineColor none (some ["A", "B"]) (some [recA]) "A" =
        "hsl(var(--chart-1))") ∧
    (activeIs (some recA) "A" = true ∧
      getPointColor (some recA) (some ["A", "B"]) "A" =
        "hsl(var(--chart-3))") ∧
    (activeIs (some recA) "C" = false ∧ setHas (some ["A", "B"]) "C" = false ∧
      getPointColor (some recA) (some ["A", "B"]) "C" =
        "hsl(var(--muted-foreground) / 0.3)") :=
  ⟨⟨by decide, by decide,
    C1_emphasis_precedence.2.2.2.2.1 (some ["A", "B"]) (some [recA]) "A"
      (by decide) (by decide)⟩,
   ⟨by decide,
    C1_emphasis_precedence.1 (some recA) (some ["A", "B"]) "A" (by decide)⟩,
   ⟨by decide, by decide,
    C1_emphasis_precedence.2.2.1 (some recA) (some ["A", "B"]) "C"
      (by decide) (by decide) (by decide)⟩⟩

/-! ## Filter-engine claims -/

/-- A filter state with the dashboard's startup defaults
(`src/pages/Index.tsx:23-30`) and a non-empty allow-list. -/
def cxFilter : FilterState :=
  { renewableEnergy := (0, 100)
    electricityCost := (0, 100)
    temperature := (-20, 50)
    gdp := (0, 100000)
    internetSpeed := (0, 1000)
    selectedMetric := "renewableEnergyPercent"
    selectedCountries := ["ZZ"] }

/-- A record with no defined metrics: it passes every range check. -/
def cxRecPass : CountryRec := { country := "Passland", countryCode := "AA" }

/-- Counterexample to C4 as stated: with the non-empty allow-list
`["ZZ"]`, the record with id `"AA"` is nevertheless in the filter's output
— `filteredData` never consults `selectedCountries`. -/
theorem C4_counterexample :
    cxRecPass ∈ filteredData cxFilter [cxRecPass] ∧
    cxFilter.selectedCountries ≠ [] ∧
    cxRecPass.countryCode ∉ cxFilter.selectedCountries := by
  refine ⟨by decide, by decide, by decide⟩

/-- C4 (amended): a record is in the filter's output only if it passes
every configured range check; the `selectedCountries` allow-list, though
declared and initialized, is never consulted, so no membership condition is
imposed. -/
theorem C4_output_passes_every_range_check :
    ∀ (f : FilterState) (data : List CountryRec) (c : CountryRec),
      c ∈ filteredData f data → ∀ a : FilterAttr, attrCheck f c a = true :=
  fun _ _ _ hc => countryPasses_iff.mp (mem_filteredData.mp hc).2

/-- Witness for C4: the record of the counterexample passes each of the
five checks. -/
theorem C4_witness :
    cxRecPass ∈ filteredData cxFilter [cxRecPass] ∧
    attrCheck cxFilter cxRecPass .gdpA = true :=
  ⟨by decide,
    C4_output_passes_every_range_check cxFilter [cxRecPass] cxRecPass
      (by decide) .gdpA⟩

/-- The raw `[min, max]` pair a filter state holds for each filtered
attribute (before the electricity-cost unit conversion). -/
def rawRange (f : FilterState) : FilterAttr → ℚ × ℚ
  | .renewable => f.renewableEnergy
  | .elecCost => f.electricityCost
  | .temp => f.temperature
  | .gdpA => f.gdp
  | .internet => f.internetSpeed

/-- Replace one named range of a filter state. -/
def setRange (f : FilterState) : FilterAttr → ℚ × ℚ → FilterState
  | .renewable, r => { f with renewableEnergy := r }
  | .elecCost, r => { f with electricityCost := r }
  | .temp, r => { f with temperature := r }
  | .gdpA, r => { f with gdp := r }
  | .internet, r => { f with internetSpeed := r }

/-- Relation: `r'` widens `r`: its min is no larger and its max no smaller. -/
def rangeWiden (r r' : ℚ × ℚ) : Prop :=
  r'.1 ≤ r.1 ∧ r.2 ≤ r'.2

/-- Relation: `F'` is obtained from `F` by widening exactly one named range. -/
def widensOneRange (F F' : FilterState) : Prop :=
  ∃ (a : FilterAttr) (r : ℚ × ℚ), rangeWiden (rawRange F a) r ∧ F' = setRange F a r

lemma attrBounds_setRange_same {F : FilterState} {a : FilterAttr} {r : ℚ × ℚ}
    (hw : rangeWiden (rawRange F a) r) :
    (attrBounds (setRange F a r) a).1 ≤ (attrBounds F a).1 ∧
    (attrBounds F a).2 ≤ (attrBounds (setRange F a r) a).2 := by
  obtain ⟨h1, h2⟩ := hw
  cases a <;>
    simp only [attrBounds, setRange, rawRange] at h1 h2 ⊢ <;>
    refine ⟨?_, ?_⟩ <;>
    first
      | exact h1
      | exact h2
      | exact (div_le_div_iff_of_pos_right (by norm_num : (0:ℚ) < 100)).mpr h1
      | exact (div_le_div_iff_of_pos_right (by norm_num : (0:ℚ) < 100)).mpr h2

lemma attrBounds_setRange_other {F : FilterState} {a b : FilterAttr}
    {r : ℚ × ℚ} (hb : b ≠ a) :
    attrBounds (setRange F a r) b = attrBounds F b := by
  cases a <;> cases b <;>
    first
      | exact absurd rfl hb
      | simp [attrBounds, setRange]

/-- C5: widening one range of the filter state never removes a record
from the filter's output. -/
theorem C5_filter_monotone_under_widening :
    ∀ (F F' : FilterState) (data : List CountryRec) (c : CountryRec),
      widensOneRange F F' → c ∈ filteredData F data → c ∈ filteredData F' data := by
  intro F F' data c hw hc
  obtain ⟨a, r, hwr, rfl⟩ := hw
  obtain ⟨hdata, hpass⟩ := mem_filteredData.mp hc
  refine mem_filteredData.mpr ⟨hdata, countryPasses_iff.mpr ?_⟩
  intro b
  have hb := countryPasses_iff.mp hpass b
  by_cases hba : b = a
  · subst hba
    obtain ⟨h1, h2⟩ := attrBounds_setRange_same hwr
    exact rangePass_mono h1 h2 hb
  · unfold attrCheck
    rw [attrBounds_setRange_other hba]
    exact hb

/-- Witness for C5: widening the gdp range keeps the sample record in the
output. -/
theorem C5_witness :
    widensOneRange cxFilter (setRange cxFilter .gdpA (0, 200000)) ∧
    cxRecPass ∈ filteredData cxFilter [cxRecPass] ∧
    cxRecPass ∈ filteredData (setRange cxFilter .gdpA (0, 200000)) [cxRecPass] :=
  ⟨⟨.gdpA, (0, 200000), ⟨by norm_num [rawRange, cxFilter], by norm_num [rawRange, cxFilter]⟩, rfl⟩,
   by decide,
   C5_filter_monotone_under_widening cxFilter _ [cxRecPass] cxRecPass
     ⟨.gdpA, (0, 200000), ⟨by norm_num [rawRange, cxFilter], by norm_num [rawRange, cxFilter]⟩, rfl⟩
     (by decide)⟩

/-- C6: a record whose value for a filtered attribute is undefined
passes that range check, for every range (any min and max). -/
theorem C6_absent_value_passes_range_check :
    ∀ (f : FilterState) (c : CountryRec) (a : FilterAttr),
      attrValue c a = none → attrCheck f c a = true := by
  intro f c a h
  simp [attrCheck, h, rangePass]

/-- Witness for C6: the metric-less record passes the gdp check of the
default filter. -/
theorem C6_witness :
    attrValue cxRecPass .gdpA = none ∧
    attrCheck cxFilter cxRecPass .gdpA = true :=
  ⟨by decide, C6_absent_value_passes_range_check cxFilter cxRecPass .gdpA (by decide)⟩

lemma rangePass_inverted {lo hi : ℚ} (h : hi < lo) (x : ℚ) :
    rangePass (some x) lo hi = false := by
  rcases lt_or_ge x lo with hx | hx
  · simp [rangePass, hx]
  · simp [rangePass, lt_of_lt_of_le h hx]

/-- C7: the filter is a total function (the embedding is structurally
total — no exception path exists), and an inverted range (`min > max`)
makes its check reject exactly the records with a defined value for that
attribute; records with undefined values still pass. -/
theorem C7_inverted_range_rejects_defined :
    ∀ (f : FilterState) (c : CountryRec) (a : FilterAttr),
      (rawRange f a).2 < (rawRange f a).1 →
      (attrCheck f c a = true ↔ attrValue c a = none) := by
  intro f c a hinv
  have hbounds : (attrBounds f a).2 < (attrBounds f a).1 := by
    cases a <;>
      simp only [attrBounds, rawRange] at hinv ⊢ <;>
      first
        | exact hinv
        | exact (div_lt_div_iff_of_pos_right (by norm_num : (0:ℚ) < 100)).mpr hinv
  constructor
  · intro hpass
    cases hv : attrValue c a with
    | none => rfl
    | some x =>
        unfold attrCheck at hpass
        rw [hv, rangePass_inverted hbounds x] at hpass
        cases hpass
  · intro hv
    simp [attrCheck, hv, rangePass]

/-- An inverted-range filter state (gdp range `[100, 0]`). -/
def cxFilterInv : FilterState :=
  { cxFilter with gdp := (100, 0) }

/-- A record with a defined gdp. -/
def cxRecGdp : CountryRec :=
  { country := "Gdpland", countryCode := "GD", gdpPerCapita := some 50 }

/-- Witness for C7: under the inverted gdp range, the defined-gdp record
fails the check and the undefined-gdp record passes it. -/
theorem C7_witness :
    ((0 : ℚ) < 100 ∧ attrCheck cxFilterInv cxRecGdp .gdpA ≠ true) ∧
    (attrValue cxRecPass .gdpA = none ∧ attrCheck cxFilterInv cxRecPass .gdpA = true) :=
  ⟨⟨by norm_num,
    fun hpass =>
      (by decide : attrValue cxRecGdp .gdpA ≠ none)
        ((C7_inverted_range_rejects_defined cxFilterInv cxRecGdp .gdpA
          (by norm_num [rawRange, cxFilterInv, cxFilter])).mp hpass)⟩,
   ⟨by decide,
    (C7_inverted_range_rejects_defined cxFilterInv cxRecPass .gdpA
      (by norm_num [rawRange, cxFilterInv, cxFilter])).mpr (by decide)⟩⟩

/-! ## Highlight/compare toggle claims -/

/-- C8 (amended): `handleSpiderCountrySelect(country)` (the toggle
operation, called without options) does *not* leave the active selection
unchanged — it sets `selectedCountry` to the clicked country.  It toggles
exactly the membership of the country's code in the compare list (every
other code's membership is untouched), and applying it twice restores the
compare list's membership for every code. -/
theorem C8_toggle_membership_and_active :
    ∀ (c : CountryRec) (s : DashState),
      (handleSpiderCountrySelect c none s).selectedCountry = some c ∧
      hasCode (handleSpiderCountrySelect c none s).compareCountries c.countryCode
        = !(hasCode s.compareCountries c.countryCode) ∧
      (∀ k, k ≠ c.countryCode →
        hasCode (handleSpiderCountrySelect c none s).compareCountries k
          = hasCode s.compareCountries k) ∧
      (∀ k, hasCode (handleSpiderCountrySelect c none
          (handleSpiderCountrySelect c none s)).compareCountries k
          = hasCode s.compareCountries k) := by
  intro c s
  have hclosed : ∀ t : DashState, handleSpiderCountrySelect c none t =
      if hasCode t.compareCountries c.countryCode then
        ⟨some c, t.compareCountries.filter
          (fun x => !(x.countryCode == c.countryCode))⟩
      else ⟨some c, t.compareCountries ++ [c]⟩ := by
    intro t
    simp only [handleSpiderCountrySelect, hasCode]
    rw [if_neg (by simp)]
  by_cases halready : hasCode s.compareCountries c.countryCode = true
  · have e1 : handleSpiderCountrySelect c none s =
        ⟨some c, s.compareCountries.filter
          (fun x => !(x.countryCode == c.countryCode))⟩ := by
      rw [hclosed s, if_pos halready]
    have e2 : handleSpiderCountrySelect c none
        (⟨some c, s.compareCountries.filter
          (fun x => !(x.countryCode == c.countryCode))⟩ : DashState) =
        ⟨some c, s.compareCountries.filter
          (fun x => !(x.countryCode == c.countryCode)) ++ [c]⟩ := by
      rw [hclosed, if_neg]
      simp [hasCode_filter_self]
    refine ⟨by rw [e1], ?_, ?_, ?_⟩
    · rw [e1, halready]
      simpa using hasCode_filter_self s.compareCountries c.countryCode
    · intro k hk
      rw [e1]
      exact hasCode_filter_ne s.compareCountries hk
    · intro k
      rw [e1, e2]
      by_cases hk : k = c.countryCode
      · subst hk
        rw [hasCode_append, hasCode_filter_self, halready]
        simp
      · rw [hasCode_append, hasCode_filter_ne s.compareCountries hk,
          beq_eq_false_iff_ne.mpr (Ne.symm hk)]
        simp
  · have hfalse : hasCode s.compareCountries c.countryCode = false := by
      simpa using halready
    have e1 : handleSpiderCountrySelect c none s =
        ⟨some c, s.compareCountries ++ [c]⟩ := by
      rw [hclosed s, if_neg halready]
    have e2 : handleSpiderCountrySelect c none
        (⟨some c, s.compareCountries ++ [c]⟩ : DashState) =
        ⟨some c, (s.compareCountries ++ [c]).filter
          (fun x => !(x.countryCode == c.countryCode))⟩ := by
      rw [hclosed, if_pos]
      rw [hasCode_append]
      simp
    refine ⟨by rw [e1], ?_, ?_, ?_⟩
    · rw [e1, hfalse, hasCode_append, hfalse]
      simp
    · intro k hk
      rw [e1, hasCode_append, beq_eq_false_iff_ne.mpr (Ne.symm hk)]
      simp
    · intro k
      rw [e1, e2]
      by_cases hk : k = c.countryCode
      · subst hk
        rw [hasCode_filter_self, hfalse]
      · rw [hasCode_filter_ne _ hk, hasCode_append,
          beq_eq_false_iff_ne.mpr (Ne.symm hk)]
        simp

/-- Counterexample to C8 as stated: toggling "TG" from the empty state
changes the active selection from `none` to the toggled country. -/
theorem C8_counterexample :
    (handleSpiderCountrySelect recC none ⟨none, []⟩).selectedCountry = some recC ∧
    (DashState.mk none []).selectedCountry = none := by
  refine ⟨by decide, rfl⟩

/-- Witness for C8: the amended statement at a concrete state, with the
other-code frame condition exercised. -/
theorem C8_witness :
    (handleSpiderCountrySelect recA none ⟨none, [recB]⟩).selectedCountry = some recA ∧
    hasCode (handleSpiderCountrySelect recA none ⟨none, [recB]⟩).compareCountries "B"
      = hasCode [recB] "B" ∧
    (∀ k, hasCode (handleSpiderCountrySelect recA none
        (handleSpiderCountrySelect recA none ⟨none, [recB]⟩)).compareCountries k
        = hasCode [recB] k) :=
  ⟨(C8_toggle_membership_and_active recA ⟨none, [recB]⟩).1,
   (C8_toggle_membership_and_active recA ⟨none, [recB]⟩).2.2.1 "B" (by decide),
   (C8_toggle_membership_and_active recA ⟨none, [recB]⟩).2.2.2⟩

/-! ## Loader claims -/

/-- Anatomy of membership in `loadCiaFinalData`'s output: every produced
record comes from a row with a truthy country cell whose trimmed name the
lookup resolves, and is exactly the record literal the loader builds. -/
lemma loadCia_mem_elim {lookup : String → Option Coord} {rows : List CiaRow}
    {rec : LoadedCountry} (hmem : rec ∈ loadCiaFinalData lookup rows) :
    ∃ row ∈ rows, ∃ name0 coords, row.rowCountry = some name0 ∧ name0 ≠ "" ∧
      lookup (jsTrim name0) = some coords ∧
      rec = { country := jsTrim name0
              countryCode := ciaCountryCode coords.code (jsTrim name0)
              latitude := .finite coords.lat
              longitude := .finite coords.lng
              governmentType := row.governmentType
              capital := row.capital
              literacy := parseLiteracyRate row.literacyRate
              numFields := ciaNumericFields.map
                (fun p => (p.1, parseNumber (getCell row p.2))) } := by
  simp only [loadCiaFinalData, List.mem_filterMap] at hmem
  obtain ⟨row, hrow, heq⟩ := hmem
  cases hc : row.rowCountry with
  | none => rw [hc] at heq; cases heq
  | some name0 =>
      rw [hc] at heq
      simp only at heq
      by_cases h0 : name0 = ""
      · rw [if_pos h0] at heq; cases heq
      · rw [if_neg h0] at heq
        cases hl : lookup (jsTrim name0) with
        | none => rw [hl] at heq; cases heq
        | some coords =>
            rw [hl] at heq
            simp only [Option.some.injEq] at heq
            exact ⟨row, hrow, name0, coords, hc, h0, hl, heq.symm⟩

/-- Anatomy of membership in `fetchCountryDataFromCsv`'s output. -/
lemma fetchCsv_mem_elim {energy economy comms : List DataRow}
    {geo : List GeoRow} {rec : LoadedCountry}
    (hmem : rec ∈ fetchCountryDataFromCsv energy economy comms geo) :
    ∃ g ∈ geo, ∃ c0 lat lng, g.rowCountry = some c0 ∧ normKey c0 ≠ "" ∧
      parseLatLong g.geoCoord = some (lat, lng) ∧
      rec = { country := jsTrim c0
              countryCode := deriveCountryCode
                ((indexByCountry comms (normKey c0)).bind
                  (fun r => r.countryCodeCell)) (jsTrim c0)
              latitude := .finite lat
              longitude := .finite lng
              numFields :=
                [("renewableEnergyPercent",
                  keepFinite (joinedNum (indexByCountry energy (normKey c0))
                    "electricity_access_percent")),
                 ("gdpPerCapita",
                  keepFinite (joinedNum (indexByCountry economy (normKey c0))
                    "Real_GDP_per_Capita_USD")),
                 ("internetSpeed",
                  keepFinite (joinedNum2 (indexByCountry comms (normKey c0))
                    "broadband_fixed_subscriptions_total" "internet_users_total")),
                 ("co2Emissions",
                  keepFinite (joinedNum (indexByCountry energy (normKey c0))
                    "carbon_dioxide_emissions_Mt")),
                 ("electricityCapacityKw",
                  keepFinite (joinedNum (indexByCountry energy (normKey c0))
                    "electricity_generating_capacity_kW")),
                 ("internetUsers",
                  keepFinite (joinedNum (indexByCountry comms (normKey c0))
                    "internet_users_total"))] } := by
  simp only [fetchCountryDataFromCsv, List.mem_filterMap] at hmem
  obtain ⟨g, hg, heq⟩ := hmem
  cases hc : g.rowCountry with
  | none => rw [hc] at heq; cases heq
  | some c0 =>
      rw [hc] at heq
      simp only at heq
      by_cases h0 : normKey c0 = ""
      · rw [if_pos h0] at heq; cases heq
      · rw [if_neg h0] at heq
        cases hl : parseLatLong g.geoCoord with
        | none => rw [hl] at heq; cases heq
        | some p =>
            obtain ⟨lat, lng⟩ := p
            rw [hl] at heq
            simp only [Option.some.injEq] at heq
            exact ⟨g, hg, c0, lat, lng, hc, h0, hl, heq.symm⟩

/-- C9 (amended): a row whose country location cannot be resolved is
*dropped entirely* by both CSV loaders — every record in the loaded store
has a resolved location (`loadCiaFinalData` skips rows its coordinate
lookup cannot resolve; `fetchCountryDataFromCsv` skips geography rows whose
coordinate string does not parse). -/
theorem C9_loaders_drop_unresolved_locations :
    (∀ (lookup : String → Option Coord) (rows : List CiaRow)
        (rec : LoadedCountry), rec ∈ loadCiaFinalData lookup rows →
        (lookup rec.country).isSome = true) ∧
    (∀ (energy economy comms : List DataRow) (geo : List GeoRow)
        (rec : LoadedCountry),
        rec ∈ fetchCountryDataFromCsv energy economy comms geo →
        ∃ g ∈ geo, ∃ c0, g.rowCountry = some c0 ∧ rec.country = jsTrim c0 ∧
          (parseLatLong g.geoCoord).isSome = true) := by
  constructor
  · intro lookup rows rec hmem
    obtain ⟨row, _, name0, coords, _, _, hl, hrec⟩ := loadCia_mem_elim hmem
    rw [hrec]
    simp [hl]
  · intro energy economy comms geo rec hmem
    obtain ⟨g, hg, c0, lat, lng, hc, _, hl, hrec⟩ := fetchCsv_mem_elim hmem
    exact ⟨g, hg, c0, hc, by rw [hrec], by rw [hl]; rfl⟩

/-- The coordinate lookup of the counterexample: only France resolves. -/
def cxLookup : String → Option Coord :=
  fun s => if s = "France" then some { lat := 46, lng := 2, code := some "FR" } else none

def cxRowAtlantis : CiaRow :=
  { rowCountry := some "Atlantis", governmentType := none, capital := none
    literacyRate := none, cells := [] }

def cxRowFrance : CiaRow :=
  { rowCountry := some "France", governmentType := none, capital := none
    literacyRate := none, cells := [] }

/-- Counterexample to C9 as stated: the Atlantis row, whose location the
lookup cannot resolve, is *not* retained — the loaded store holds only
France. -/
theorem C9_counterexample :
    cxLookup "Atlantis" = none ∧
    (loadCiaFinalData cxLookup [cxRowAtlantis, cxRowFrance]).map
      LoadedCountry.country = ["France"] := by
  refine ⟨by decide, by decide⟩

/-- The record `loadCiaFinalData` builds for the France row. -/
def cxRecFrance : LoadedCountry :=
  { country := "France", countryCode := "FR"
    latitude := .finite 46, longitude := .finite 2
    governmentType := none, capital := none, literacy := none
    numFields := ciaNumericFields.map (fun p => (p.1, none)) }

/-- Witness for C9: the France record is in the loaded store and its
location resolves. -/
theorem C9_witness :
    cxRecFrance ∈ loadCiaFinalData cxLookup [cxRowFrance] ∧
    (cxLookup cxRecFrance.country).isSome = true :=
  ⟨by decide,
   C9_loaders_drop_unresolved_locations.1 cxLookup [cxRowFrance] cxRecFrance
     (by decide)⟩

/-- Lemma: `parseNumber` never returns a non-finite number. -/
lemma parseNumber_isFinite {cell : CsvCell} {j : JsNum}
    (h : parseNumber cell = some j) : j.isFinite = true := by
  cases cell with
  | missing => cases h
  | empty => cases h
  | numOf j0 =>
      by_cases hf : j0.isFinite = true
      · simp only [parseNumber, hf, if_true, Option.some.injEq] at h
        rw [← h]
        exact hf
      · simp only [parseNumber, hf, if_false] at h
        cases h

/-- Lemma: `keepFinite` never returns a non-finite number. -/
lemma keepFinite_isFinite {v : Option JsNum} {j : JsNum}
    (h : keepFinite v = some j) : j.isFinite = true := by
  cases v with
  | none => cases h
  | some j0 =>
      by_cases hf : j0.isFinite = true
      · simp only [keepFinite, hf, if_true, Option.some.injEq] at h
        rw [← h]
        exact hf
      · simp only [keepFinite, hf, if_false] at h
        cases h

/-- C10: loader well-formedness — `parseNumber` maps every non-finite
conversion result to `undefined`, and every record either CSV loader
produces has finite latitude and longitude and only finite (or absent)
numeric attribute values. -/
theorem C10_loader_wellformedness :
    (∀ (cell : CsvCell) (j : JsNum), parseNumber cell = some j →
        j.isFinite = true) ∧
    (∀ (lookup : String → Option Coord) (rows : List CiaRow)
        (rec : LoadedCountry), rec ∈ loadCiaFinalData lookup rows →
        rec.latitude.isFinite = true ∧ rec.longitude.isFinite = true ∧
        ∀ p ∈ rec.numFields, ∀ j, p.2 = some j → j.isFinite = true) ∧
    (∀ (energy economy comms : List DataRow) (geo : List GeoRow)
        (rec : LoadedCountry),
        rec ∈ fetchCountryDataFromCsv energy economy comms geo →
        rec.latitude.isFinite = true ∧ rec.longitude.isFinite = true ∧
        ∀ p ∈ rec.numFields, ∀ j, p.2 = some j → j.isFinite = true) := by
  refine ⟨fun _ _ => parseNumber_isFinite, ?_, ?_⟩
  · intro lookup rows rec hmem
    obtain ⟨row, _, name0, coords, _, _, _, hrec⟩ := loadCia_mem_elim hmem
    subst hrec
    refine ⟨rfl, rfl, ?_⟩
    intro p hp j hj
    simp only [List.mem_map] at hp
    obtain ⟨q, _, rfl⟩ := hp
    exact parseNumber_isFinite hj
  · intro energy economy comms geo rec hmem
    obtain ⟨g, _, c0, lat, lng, _, _, _, hrec⟩ := fetchCsv_mem_elim hmem
    subst hrec
    refine ⟨rfl, rfl, ?_⟩
    intro p hp j hj
    simp only [List.mem_cons, List.not_mem_nil, or_false] at hp
    rcases hp with rfl | rfl | rfl | rfl | rfl | rfl <;>
      exact keepFinite_isFinite hj

/-- Witness for C10: the France record of the loaded store has finite
coordinates, and a concrete finite cell passes `parseNumber`. -/
theorem C10_witness :
    (parseNumber (.numOf (.finite 42)) = some (.finite 42) ∧
      JsNum.isFinite (.finite 42) = true) ∧
    (cxRecFrance ∈ loadCiaFinalData cxLookup [cxRowFrance] ∧
      cxRecFrance.latitude.isFinite = true) :=
  ⟨⟨by decide,
    C10_loader_wellformedness.1 (.numOf (.finite 42)) (.finite 42) (by decide)⟩,
   ⟨by decide,
    (C10_loader_wellformedness.2.1 cxLookup [cxRowFrance] cxRecFrance
      (by decide)).1⟩⟩

end DataCenter
